import Mathlib

/-!
Verification of the normal-modes configuration generator
(`potential_fitting/configurations/normal_modes_configuration_generator.py`).

The Python module is shallowly embedded here:

* Parsed floating-point data (frequencies, reduced masses, displacement
  components, atom masses and coordinates) is modelled by `ℚ`; values
  produced by irrational operations (`math.sqrt`, `numpy.tanh`, sampling)
  live in `ℝ`.
* Fallible code returns `Except PFError`; a generator run returns the list
  of yielded configurations, the number of standard-normal draws consumed,
  and `Option PFError` for an exception that ended the run.
* The seeded RNG (`random.Random(seed).normalvariate(0, 1)` stream) is an
  external service per the specification and is modelled as an abstract
  function `gauss : seed → draw index → ℝ`.
* The physical unit constants (`autocm`, `cmtoau`, `kelvin_to_au`,
  `mass_electron_per_mass_proton`, `bohr`) are externally supplied fixed
  constants and appear as explicit `ℚ` parameters.
-/

/-- Errors raised by the embedded code: `LineFormatError`, `ParsingError`,
`InvalidValueError`, `InconsistentValueError` from the repository's
exception module, plus Python's built-in `ZeroDivisionError` and
`NameError`. -/
inductive PFError : Type where
  | lineFormat
  | parsing
  | invalidValue
  | inconsistentValue
  | zeroDivision
  | nameError
deriving DecidableEq

/-- A line of the normal-modes input file, as returned by `readline`:
the characters of the line including a trailing newline character
(except possibly for the final line of the file). End of file is
modelled by running out of lines. -/
abbrev Line := List Char

/-- The blank line separating normal-mode blocks (`readline` returns it
as the one-character string containing a newline). -/
def newlineLine : Line := ['\n']

/-- Python's `str.split()` with no argument: split on runs of whitespace,
discarding empty tokens. -/
def wsplit (l : Line) : List (List Char) :=
  (l.splitOnP (fun c => c.isWhitespace)).filter (fun t => !t.isEmpty)

/-- Numeric value of a decimal digit character. -/
def digitVal (c : Char) : ℕ := c.toNat - '0'.toNat

/-- Natural number denoted by a string of decimal digits. -/
def natOfDigits (l : List Char) : ℕ := l.foldl (fun n c => 10 * n + digitVal c) 0

/-- Modelled from the spec: the repository calls Python's built-in
`float(token)` (an external service) to turn a token into a number,
raising `ValueError` on failure (mapped to `none` here). The model
covers unsigned plain decimal literals `digits`, `digits.digits`,
`digits.` and `.digits`. -/
def parseUnsignedFloat? (t : List Char) : Option ℚ :=
  let intPart := t.takeWhile Char.isDigit
  match t.dropWhile Char.isDigit with
  | [] => if intPart.isEmpty then none else some (natOfDigits intPart : ℚ)
  | '.' :: fracPart =>
    if fracPart.all Char.isDigit && !(intPart.isEmpty && fracPart.isEmpty) then
      some ((natOfDigits intPart : ℚ) + (natOfDigits fracPart : ℚ) / (10 : ℚ) ^ fracPart.length)
    else none
  | _ => none

/-- Modelled from the spec: Python's `float`, extended to an optional
leading sign. -/
def parseFloat? (t : List Char) : Option ℚ :=
  match t with
  | '+' :: rest => parseUnsignedFloat? rest
  | '-' :: rest => (parseUnsignedFloat? rest).map (fun q => -q)
  | _ => parseUnsignedFloat? t

/-- The inner `for atom_index in range(num_atoms)` loop of
`parse_normal_modes_file`: read `num_atoms` lines of three
whitespace-separated floats.  Returns the parsed offsets and the
remaining lines (with a bound on their number, used for termination
of the block loop). -/
def parseAtomLines (num_atoms : ℕ) (lines : List Line) :
    Except PFError (List (List ℚ) × { rem : List Line // rem.length ≤ lines.length }) :=
  match num_atoms with
  | 0 => .ok ([], ⟨lines, le_refl _⟩)
  | n + 1 =>
    match lines with
    | [] => .error .parsing
    | normal_mode_line :: ls =>
      if (wsplit normal_mode_line).length != 3 then .error .lineFormat
      else
        match (wsplit normal_mode_line).mapM parseFloat? with
        | none => .error .parsing
        | some offsets =>
          match parseAtomLines n ls with
          | .error e => .error e
          | .ok (rest, rem) =>
            .ok (offsets :: rest, ⟨rem.val, by
              have := rem.property
              simp only [List.length_cons]
              omega⟩)

/-- One block of `parse_normal_modes_file` after its header line has been
checked: the `frequency = x` line, the `reduced mass = x` line,
`num_atoms` offset lines, and the closing blank line. -/
def parseBlockTail (num_atoms : ℕ) (rest : List Line) :
    Except PFError ((ℚ × ℚ × List (List ℚ)) × { rem : List Line // rem.length < rest.length }) :=
  match rest with
  | [] => .error .parsing
  | frequency_line :: rest1 =>
    if !("frequency = ".toList.isPrefixOf frequency_line)
        || (wsplit frequency_line).length != 3 then
      .error .lineFormat
    else
      match parseFloat? ((wsplit frequency_line).getD 2 []) with
      | none => .error .parsing
      | some frequency =>
        match rest1 with
        | [] => .error .parsing
        | reduced_mass_line :: rest2 =>
          if !("reduced mass = ".toList.isPrefixOf reduced_mass_line)
              || (wsplit reduced_mass_line).length != 4 then
            .error .lineFormat
          else
            match parseFloat? ((wsplit reduced_mass_line).getD 3 []) with
            | none => .error .parsing
            | some reduced_mass =>
              match parseAtomLines num_atoms rest2 with
              | .error e => .error e
              | .ok (normal_mode, nmrem) =>
                match h3 : nmrem.val with
                | [] => .error .parsing
                | blank_line :: rem4 =>
                  if blank_line = newlineLine then
                    .ok ((frequency, reduced_mass, normal_mode), ⟨rem4, by
                      have := nmrem.property
                      rw [h3] at this
                      simp only [List.length_cons] at this ⊢
                      omega⟩)
                  else .error .parsing

/-- `parse_normal_modes_file` (lines 150-256 of the source): repeatedly
read blocks of `normal mode: i` / `frequency = x` / `reduced mass = x` /
`num_atoms` offset lines / blank line, until end of file is reached at a
block boundary.  Returns the three parallel lists (frequencies, reduced
masses, normal modes). -/
def parse_normal_modes_file (num_atoms : ℕ) (lines : List Line) :
    Except PFError (List ℚ × List ℚ × List (List (List ℚ))) :=
  match lines with
  | [] => .ok ([], [], [])
  | first_line :: rest =>
    if !("normal mode:".toList.isPrefixOf first_line)
        || (wsplit first_line).length != 3 then
      .error .lineFormat
    else
      match parseBlockTail num_atoms rest with
      | .error e => .error e
      | .ok ((frequency, reduced_mass, normal_mode), rem) =>
        match parse_normal_modes_file num_atoms rem.val with
        | .error e => .error e
        | .ok (frequencies, reduced_masses, normal_modes) =>
          .ok (frequency :: frequencies, reduced_mass :: reduced_masses,
               normal_mode :: normal_modes)
termination_by lines.length
decreasing_by
  have := rem.property
  simp only [List.length_cons]
  omega

/-- The ordering used by Python's `sorted(zip(frequencies, payload))`:
tuples are compared lexicographically, first by frequency, then (on
ties) by the payload's own ordering.  For payloads of nested lists of
floats Python compares lists lexicographically, which is exactly the
Mathlib lexicographic `LinearOrder` on lists. -/
def pyTupleLe {β : Type} [LinearOrder β] (a b : ℚ × β) : Prop := toLex a ≤ toLex b

instance {β : Type} [LinearOrder β] : DecidableRel (@pyTupleLe β _) :=
  fun a b => inferInstanceAs (Decidable (toLex a ≤ toLex b))

/-- `sort_by_frequency` (source lines 258-280): the reduced masses are
reordered by `sorted(zip(frequencies, reduced_masses))`, the normal
modes by `sorted(zip(frequencies, normal_modes))`, and the frequencies
by `sorted(frequencies)`.  Python's `sorted` on tuples is a stable sort
by the lexicographic tuple order; since that order is antisymmetric the
sorted output is the unique sorted permutation, which `insertionSort`
computes. -/
def sort_by_frequency (frequencies reduced_masses : List ℚ)
    (normal_modes : List (List (List ℚ))) :
    List ℚ × List ℚ × List (List (List ℚ)) :=
  let reduced_masses2 :=
    ((frequencies.zip reduced_masses).insertionSort pyTupleLe).map Prod.snd
  let normal_modes2 :=
    ((frequencies.zip normal_modes).insertionSort pyTupleLe).map Prod.snd
  let frequencies2 := frequencies.insertionSort (fun a b => a ≤ b)
  (frequencies2, reduced_masses2, normal_modes2)

/-- Modelled from the spec: the distribution-function module
(`potential_fitting/utils/distribution_function.py`, not part of the
analysed sources) is a closed family of scalar functions on `[0,1]`:
constant, linear (two-point determined), geometric (first value and
ratio), and piecewise (breakpoints partitioning `[0,1]`, each segment
delegating to a sub-function re-normalized to that segment). -/
inductive DistributionFunction : Type where
  | constant (value : ℚ) : DistributionFunction
  | linear (slope intercept : ℚ) : DistributionFunction
  | geometric (start factor : ℚ) : DistributionFunction
  | piecewise (functions : List DistributionFunction) (boundaries : List ℚ) :
      DistributionFunction

/-- Modelled from the spec: `LinearDistributionFunction.get_function_from_2_points`,
the linear function through `(x1, y1)` and `(x2, y2)`. -/
def linear_from_2_points (x1 y1 x2 y2 : ℚ) : DistributionFunction :=
  .linear ((y2 - y1) / (x2 - x1)) (y1 - x1 * ((y2 - y1) / (x2 - x1)))

/-- Modelled from the spec: `DistributionFunction.get_value(x)` evaluates
the distribution at `x ∈ [0,1]`.  A piecewise function finds the segment
containing `x` and evaluates that segment's sub-function at the
re-normalized local coordinate. -/
noncomputable def DistributionFunction.get_value : DistributionFunction → ℚ → ℝ
  | .constant value, _ => (value : ℝ)
  | .linear slope intercept, x => (slope : ℝ) * (x : ℝ) + (intercept : ℝ)
  | .geometric start factor, x => (start : ℝ) * (factor : ℝ) ^ (x : ℝ)
  | .piecewise functions boundaries, x =>
    let idx := (boundaries.takeWhile (fun b => decide (b ≤ x))).length
    let lo : ℚ := if idx = 0 then 0 else boundaries.getD (idx - 1) 0
    let hi : ℚ := if idx = boundaries.length then 1 else boundaries.getD idx 1
    match hmem : functions[idx]? with
    | none => 0
    | some f => f.get_value ((x - lo) / (hi - lo))
termination_by d _ => sizeOf d
decreasing_by
  have hf : f ∈ functions := List.getElem?_mem hmem
  have := List.sizeOf_lt_of_mem hf
  simp only [DistributionFunction.piecewise.sizeOf_spec]
  omega

/-- The state of a constructed `NormalModesConfigurationGenerator`:
the sorted and unit-converted mode data together with the chosen
temperature and amplitude distributions and the `classical` flag. -/
structure NormalModesConfigurationGenerator : Type where
  frequencies : List ℚ
  reduced_masses : List ℚ
  normal_modes : List (List (List ℚ))
  temp_distribution : Option DistributionFunction
  A_distribution : Option DistributionFunction
  classical : Bool

/-- `__init__` (source lines 19-148) after the normal-modes file has been
parsed into three parallel lists: sort by frequency, convert frequencies
to atomic units by `abs(f) / autocm`, choose the temperature and `A`
distributions from `temperature` / `linear` / `geometric`, then apply the
user-supplied distribution overrides.  `Python frequencies[-1]` /
`frequencies[0]` on the (invalid) empty input would raise `IndexError`;
the model uses a default of `0` there. -/
def NormalModesConfigurationGenerator.init (autocm kelvin_to_au : ℚ)
    (parsed_frequencies parsed_reduced_masses : List ℚ)
    (parsed_normal_modes : List (List (List ℚ)))
    (linear geometric : Bool) (temperature : Option ℚ) (classical : Bool)
    (temp_distribution A_distribution : Option DistributionFunction) :
    Except PFError NormalModesConfigurationGenerator :=
  let sorted := sort_by_frequency parsed_frequencies parsed_reduced_masses parsed_normal_modes
  let frequencies := sorted.1.map (fun frequency => |frequency| / autocm)
  let dists : Except PFError (Option DistributionFunction × Option DistributionFunction) :=
    match temperature with
    | some t => .ok (some (.constant (t * kelvin_to_au)), none)
    | none =>
      if !linear && !geometric then
        .ok (some (.piecewise
          [ .constant (frequencies.getLastD 0 / 100),
            .constant (frequencies.getLastD 0 / 20),
            .constant (frequencies.getLastD 0 / 10),
            .constant (frequencies.getLastD 0 / 5),
            .constant (frequencies.getLastD 0 / 2) ]
          [0.05, 0.45, 0.75, 0.95]), none)
      else if linear && !geometric then
        .ok (some (linear_from_2_points 0 0 1 (frequencies.getLastD 0)),
             some (linear_from_2_points 0 0 1 2))
      else if geometric && !linear then
        .ok (some (.geometric (frequencies.headD 0)
               ((frequencies.headD 0 / (2 * frequencies.getLastD 0))⁻¹)),
             some (.geometric 1 (((1 : ℚ) / 2)⁻¹)))
      else .error .inconsistentValue
  match dists with
  | .error e => .error e
  | .ok (td, ad) =>
    .ok { frequencies := frequencies
          reduced_masses := sorted.2.1
          normal_modes := sorted.2.2
          temp_distribution := if temp_distribution.isSome then temp_distribution else td
          A_distribution := if A_distribution.isSome then A_distribution else ad
          classical := classical }

/-- The partition of `num_configs` between the temperature and amplitude
distributions (`generate_configurations`, source lines 378-397), giving
`(num_temp_configs, num_A_configs)`. -/
def choosePartition (temp_distribution A_distribution : Option DistributionFunction)
    (num_configs : ℕ) : Except PFError (ℕ × ℕ) :=
  if A_distribution.isNone && temp_distribution.isSome then
    .ok (num_configs, 0)
  else if temp_distribution.isNone && A_distribution.isSome then
    .ok (0, num_configs)
  else if temp_distribution.isSome && A_distribution.isSome then
    .ok (num_configs - num_configs / 2, num_configs / 2)
  else .error .inconsistentValue

/-- An atom of the base molecule: its mass and its x, y, z coordinates
(in angstroms), as read through the opaque `Molecule` interface. -/
structure Atom : Type where
  mass : ℚ
  x : ℚ
  y : ℚ
  z : ℚ

/-- A molecule is its list of atoms. -/
abbrev Molecule := List Atom

/-- An output geometry: the displaced x, y, z coordinates of each atom. -/
abbrev Config := List (ℝ × ℝ × ℝ)

/-- Sum of the squares of the three components of a coordinate triple
(stored, as in the source, as a length-3 list). -/
def sqTriple (coordinates : List ℝ) : ℝ :=
  coordinates.getD 0 0 ^ 2 + coordinates.getD 1 0 ^ 2 + coordinates.getD 2 0 ^ 2

/-- Pooled sum of squares of all components of a mode's displacement
vector, across all atoms and all three axes. -/
def modeNormSq (normal_mode : List (List ℝ)) : ℝ := (normal_mode.map sqTriple).sum

/-- The `for coordinates, atom in zip(normal_mode, molecule.get_atoms())`
loop of the preprocessing step (source lines 410-421): each of an atom's
three displacement components is multiplied by
`sqrt(atom.get_mass() * mass_electron_per_mass_proton)`.  Like Python's
`zip`, the result is truncated to the shorter of the two lists. -/
noncomputable def massScaledPart (memr : ℚ) (molecule : Molecule)
    (normal_mode : List (List ℚ)) : List (List ℝ) :=
  List.zipWith (fun (coordinates : List ℚ) (atom : Atom) =>
    let sqrt_mass := Real.sqrt ((atom.mass : ℝ) * (memr : ℝ))
    [ (coordinates.getD 0 0 : ℝ) * sqrt_mass,
      (coordinates.getD 1 0 : ℝ) * sqrt_mass,
      (coordinates.getD 2 0 : ℝ) * sqrt_mass ]) normal_mode molecule

/-- `normalization_scale` accumulated inside the same `zip` loop:
the sum of the squares of all mass-scaled components. -/
noncomputable def normalization_scale (memr : ℚ) (molecule : Molecule)
    (normal_mode : List (List ℚ)) : ℝ :=
  ((massScaledPart memr molecule normal_mode).map sqTriple).sum

/-- The full mass-scaled mode: the in-place mutation touches only the
zipped part, so coordinate triples beyond the atom count (which only
occur for invalid input) remain unscaled. -/
noncomputable def massScaleMode (memr : ℚ) (molecule : Molecule)
    (normal_mode : List (List ℚ)) : List (List ℝ) :=
  massScaledPart memr molecule normal_mode
    ++ (normal_mode.drop molecule.length).map (fun c => c.map (fun q => (q : ℝ)))

/-- One mode's preprocessing (source lines 404-428): mass-scale, then
divide every component by `sqrt(normalization_scale)`.  (For the invalid
all-zero mode Python would raise `ZeroDivisionError`; real division by
zero is total here and the normalization theorem assumes a nonzero
scale.) -/
noncomputable def preprocessMode (memr : ℚ) (molecule : Molecule)
    (normal_mode : List (List ℚ)) : List (List ℝ) :=
  let ns := Real.sqrt (normalization_scale memr molecule normal_mode)
  (massScaleMode memr molecule normal_mode).map (fun coordinates =>
    coordinates.map (fun c => c / ns))

/-- Preprocessing of all modes, done once per generation run. -/
noncomputable def preprocessModes (memr : ℚ) (molecule : Molecule)
    (normal_modes : List (List (List ℚ))) : List (List (List ℝ)) :=
  normal_modes.map (preprocessMode memr molecule)

/-- The fixed low-frequency cutoff `freq_cutoff = 10 * constants.cmtoau`
(source line 430): modes below 10 cm⁻¹ (converted to atomic units) are
treated as translation/rotation and skipped. -/
def freq_cutoff (cmtoau : ℚ) : ℚ := 10 * cmtoau

/-- `normal_mode[i // 3][i % 3]`: component `i` of a mode's flattened
displacement vector. -/
def flatCoord (normal_mode : List (List ℝ)) (i : ℕ) : ℝ :=
  (normal_mode.getD (i / 3) []).getD (i % 3) 0

/-- One iteration of the `for normal_mode_index, frequency, ... in zip(...)`
loop building `G` (source lines 445-468 and 488-512): if the mode's
frequency reaches the cutoff, add `sqrt(d) * U_i * U_j` to every entry,
where `d = dOf frequency` is the per-mode variance scalar; otherwise the
mode contributes nothing. -/
noncomputable def modeAccum (cutoff : ℚ) (dOf : ℚ → ℝ) (G : ℕ → ℕ → ℝ)
    (mode : ℚ × List (List ℝ)) : ℕ → ℕ → ℝ :=
  if mode.1 ≥ cutoff then
    fun i j => G i j + Real.sqrt (dOf mode.1) * flatCoord mode.2 i * flatCoord mode.2 j
  else G

/-- The `G` matrix for one config: start from all zeros and accumulate the
contribution of every mode in order.  (`G` is represented as a function of
the two indices; the source only ever reads indices below `dim`.  The
reduced masses are zipped through the source loop but never used.) -/
noncomputable def buildG (cutoff : ℚ) (dOf : ℚ → ℝ) (modes : List (ℚ × List (List ℝ))) :
    ℕ → ℕ → ℝ :=
  modes.foldl (modeAccum cutoff dOf) (fun _ _ => 0)

/-- Per-mode variance scalar `d` in the temperature-ensemble loop
(source lines 453-463). -/
noncomputable def temp_loop_d (classical : Bool) (temp : ℝ) (frequency : ℚ) : ℝ :=
  if classical then temp / (frequency : ℝ) ^ 2
  else if temp > 1.0e-8 then
    0.5 / (Real.tanh ((frequency : ℝ) / (2 * temp)) * (frequency : ℝ))
  else 0.5 / (frequency : ℝ)

/-- The first assignment to `d` in the amplitude-ensemble loop (source
lines 496-497): when `classical` is true, `d = temp / frequency ** 2`
(using the `temp` variable left over from the temperature loop);
otherwise `d` keeps its previous value. -/
noncomputable def amp_loop_classical_store (classical : Bool) (temp : ℝ) (frequency : ℚ)
    (d : ℝ) : ℝ :=
  if classical then temp / (frequency : ℝ) ^ 2 else d

/-- The second assignment to `d` in the amplitude-ensemble loop (source
lines 500-506): an unconditional `if A > 1e-8 / else` that overwrites `d`
in both branches, ignoring the incoming value. -/
noncomputable def amp_loop_final_store (A : ℝ) (frequency : ℚ) (d : ℝ) : ℝ :=
  if A > 1.0e-8 then 0.5 / (Real.tanh (0.5 / A) * (frequency : ℝ))
  else 0.5 / (frequency : ℝ)

/-- The value of `d` used to accumulate `G` in the amplitude-ensemble loop:
both sequential assignments, starting from the previous value `d0`. -/
noncomputable def amp_loop_d (classical : Bool) (temp A : ℝ) (frequency : ℚ)
    (d0 : ℝ) : ℝ :=
  amp_loop_final_store A frequency (amp_loop_classical_store classical temp frequency d0)

/-- `numpy.dot([g[i] for g in G], norm_dist_list)`: the inner product of
column `i` of `G` with the list of `dim` standard-normal draws. -/
noncomputable def gDotColumn (dim : ℕ) (G : ℕ → ℕ → ℝ) (i : ℕ) (norm_dist : ℕ → ℝ) : ℝ :=
  ((List.range dim).map (fun k => G k i * norm_dist k)).sum

/-- `make_config` (source lines 282-339): draw `dim` standard-normal
variates, project through `G`, un-mass-scale, and add the displacement to
the base coordinates converted to atomic units and back.  `norm_dist k`
is the `k`-th draw consumed by this config. -/
noncomputable def make_config (memr bohr : ℚ) (molecule : Molecule) (G : ℕ → ℕ → ℝ)
    (norm_dist : ℕ → ℝ) : Config :=
  let dim := 3 * molecule.length
  let b : ℝ := (bohr : ℝ) * 1e10
  molecule.enum.map (fun p =>
    let atom_index := p.1
    let atom := p.2
    let disp := fun coordinate_index =>
      gDotColumn dim G (atom_index * 3 + coordinate_index) norm_dist
        / Real.sqrt ((atom.mass : ℝ) * (memr : ℝ))
    ( ((atom.x : ℝ) / b + disp 0) * b,
      ((atom.y : ℝ) / b + disp 1) * b,
      ((atom.z : ℝ) / b + disp 2) * b ))

/-- The temperature-distribution config loop (source lines 433-472),
threading the draw-stream position, the configs yielded so far, and the
latest value of the `temp` variable.  Each iteration evaluates the
temperature distribution at `config_index / (num_temp_configs - 1)` —
integer arithmetic in the denominator, so Python raises
`ZeroDivisionError` when `num_temp_configs == 1` (the loop then stops
having yielded nothing, like the exception propagating out of the
generator). -/
noncomputable def temp_config_loop (cmtoau memr bohr : ℚ) (gaussS : ℕ → ℝ)
    (st : NormalModesConfigurationGenerator) (molecule : Molecule)
    (modes : List (ℚ × List (List ℝ))) (num_temp_configs : ℕ) :
    List ℕ → ℕ → List Config → Option ℝ → List Config × ℕ × Option ℝ × Option PFError
  | [], pos, acc, lastTemp => (acc, pos, lastTemp, none)
  | config_index :: ks, pos, acc, lastTemp =>
    if (num_temp_configs : ℤ) - 1 = 0 then (acc, pos, lastTemp, some .zeroDivision)
    else
      let temp := (st.temp_distribution.getD (.constant 0)).get_value
        ((config_index : ℚ) / (((num_temp_configs : ℤ) - 1 : ℤ) : ℚ))
      let G := buildG (freq_cutoff cmtoau) (temp_loop_d st.classical temp) modes
      let config := make_config memr bohr molecule G (fun i => gaussS (pos + i))
      temp_config_loop cmtoau memr bohr gaussS st molecule modes num_temp_configs
        ks (pos + 3 * molecule.length) (acc ++ [config]) (some temp)

/-- The A-distribution config loop (source lines 475-516).  As in the
source, the loop index is normalized by `num_temp_configs - 1` (not the
amplitude count).  When `classical` is true and the `temp` variable was
never assigned (no temperature-loop iteration ran), Python raises
`NameError` at the first mode that passes the cutoff; this state is
unreachable through the public constructor. -/
noncomputable def amp_config_loop (cmtoau memr bohr : ℚ) (gaussS : ℕ → ℝ)
    (st : NormalModesConfigurationGenerator) (molecule : Molecule)
    (modes : List (ℚ × List (List ℝ))) (num_temp_configs : ℕ) (lastTemp : Option ℝ) :
    List ℕ → ℕ → List Config → List Config × ℕ × Option PFError
  | [], pos, acc => (acc, pos, none)
  | config_index :: ks, pos, acc =>
    if (num_temp_configs : ℤ) - 1 = 0 then (acc, pos, some .zeroDivision)
    else
      let A := (st.A_distribution.getD (.constant 0)).get_value
        ((config_index : ℚ) / (((num_temp_configs : ℤ) - 1 : ℤ) : ℚ))
      if st.classical && lastTemp.isNone
          && modes.any (fun m => decide (m.1 ≥ freq_cutoff cmtoau)) then
        (acc, pos, some .nameError)
      else
        let G := buildG (freq_cutoff cmtoau)
          (fun frequency => amp_loop_d st.classical (lastTemp.getD 0) A frequency 0) modes
        let config := make_config memr bohr molecule G (fun i => gaussS (pos + i))
        amp_config_loop cmtoau memr bohr gaussS st molecule modes num_temp_configs lastTemp
          ks (pos + 3 * molecule.length) (acc ++ [config])

/-- The part of `generate_configurations` after the partition of
`num_configs`: preprocess the modes once, run the temperature loop over
`range num_temp_configs`, and (if no exception was raised) the amplitude
loop over `range num_A_configs`, concatenating the yielded configs. -/
noncomputable def generate_after_partition (cmtoau memr bohr : ℚ) (gaussS : ℕ → ℝ)
    (st : NormalModesConfigurationGenerator) (molecule : Molecule)
    (num_temp_configs num_A_configs : ℕ) : List Config × ℕ × Option PFError :=
  match temp_config_loop cmtoau memr bohr gaussS st molecule
      (st.frequencies.zip (preprocessModes memr molecule st.normal_modes))
      num_temp_configs (List.range num_temp_configs) 0 [] none with
  | (temp_configs, pos, _, some e) => (temp_configs, pos, some e)
  | (temp_configs, pos, lastTemp, none) =>
    match amp_config_loop cmtoau memr bohr gaussS st molecule
        (st.frequencies.zip (preprocessModes memr molecule st.normal_modes))
        num_temp_configs lastTemp (List.range num_A_configs) pos [] with
    | (amp_configs, pos2, err) => (temp_configs ++ amp_configs, pos2, err)

/-- `generate_configurations` (source lines 341-519).  `gauss s k` is the
`k`-th standard-normal draw of `random.Random(s)`; when `seed` is `None`
the seed comes from the ambient seed service (`self.get_rand_seed()`),
modelled by `rand_seed`.  The result is the list of yielded configs, the
number of random draws consumed, and the error (if any) that ended the
run. -/
noncomputable def generate_configurations (cmtoau memr bohr : ℚ) (gauss : ℕ → ℕ → ℝ)
    (rand_seed : ℕ) (st : NormalModesConfigurationGenerator)
    (molecule_lists : List (List Molecule)) (num_configs : ℕ) (seed : Option ℕ) :
    List Config × ℕ × Option PFError :=
  let s := seed.getD rand_seed
  let molecule := (molecule_lists.headD []).headD []
  let gaussS := gauss s
  let dim := 3 * molecule.length
  if (dim : ℤ) - st.normal_modes.length < 5 then ([], 0, some .invalidValue)
  else
    match choosePartition st.temp_distribution st.A_distribution num_configs with
    | .error e => ([], 0, some e)
    | .ok (num_temp_configs, num_A_configs) =>
      generate_after_partition cmtoau memr bohr gaussS st molecule
        num_temp_configs num_A_configs

/-- A well-formed normal-mode block for `num_atoms` atoms, together with
the data it denotes: the line shapes and float-parsing conditions are
exactly the ones `parse_normal_modes_file` checks.  The block is closed
by a blank line (see `GoodBlock.lines`). -/
structure GoodBlock (num_atoms : ℕ) : Type where
  header : Line
  freqLine : Line
  massLine : Line
  atomLines : List Line
  frequency : ℚ
  reduced_mass : ℚ
  coords : List (List ℚ)
  header_start : "normal mode:".toList.isPrefixOf header = true
  header_tokens : (wsplit header).length = 3
  freq_start : "frequency = ".toList.isPrefixOf freqLine = true
  freq_tokens : (wsplit freqLine).length = 3
  freq_val : parseFloat? ((wsplit freqLine).getD 2 []) = some frequency
  mass_start : "reduced mass = ".toList.isPrefixOf massLine = true
  mass_tokens : (wsplit massLine).length = 4
  mass_val : parseFloat? ((wsplit massLine).getD 3 []) = some reduced_mass
  atoms_count : atomLines.length = num_atoms
  atoms_tokens : ∀ l ∈ atomLines, (wsplit l).length = 3
  atoms_vals : atomLines.map (fun l => (wsplit l).mapM parseFloat?) = coords.map some

/-- The lines of a well-formed block: header, frequency line, reduced-mass
line, one offset line per atom, and the closing blank line. -/
def GoodBlock.lines {num_atoms : ℕ} (b : GoodBlock num_atoms) : List Line :=
  b.header :: b.freqLine :: b.massLine :: (b.atomLines ++ [newlineLine])

/-! ## Theorems -/

/-- C5: for a fixed integer seed and identical inputs, two independent runs
of `generate_configurations` produce identical sequences of output
geometries.  The generator builds its own `Random(seed)` stream, so a run
is a pure function of the seed and the inputs; in particular the output
does not depend on the ambient seed service (`rand_seed`), which is the
only thing that differs between independent runs with the same inputs. -/
theorem generate_configurations_deterministic (cmtoau memr bohr : ℚ)
    (gauss : ℕ → ℕ → ℝ) (rand_seed1 rand_seed2 : ℕ)
    (st : NormalModesConfigurationGenerator) (molecule_lists : List (List Molecule))
    (num_configs : ℕ) (s : ℕ) :
    generate_configurations cmtoau memr bohr gauss rand_seed1 st molecule_lists
        num_configs (some s)
      = generate_configurations cmtoau memr bohr gauss rand_seed2 st molecule_lists
        num_configs (some s) := rfl

/-- C6 counterexample: constructing with `linear = True`, `geometric = True`
and a given `temperature` does not raise: the `temperature is not None`
branch is taken first and the constructor succeeds, contradicting the
claim that the two flags alone force `InconsistentValueError`. -/
theorem init_both_flags_with_temperature_succeeds :
    NormalModesConfigurationGenerator.init 1 1 [] [] [] true true (some 300) true none none
      = .ok { frequencies := [], reduced_masses := [], normal_modes := [],
              temp_distribution := some (.constant (300 * 1)),
              A_distribution := none, classical := true } ∧
    NormalModesConfigurationGenerator.init 1 1 [] [] [] true true (some 300) true none none
      ≠ .error .inconsistentValue := by
  have hok : NormalModesConfigurationGenerator.init 1 1 [] [] [] true true (some 300) true
      none none
      = .ok { frequencies := [], reduced_masses := [], normal_modes := [],
              temp_distribution := some (.constant (300 * 1)),
              A_distribution := none, classical := true } := rfl
  exact ⟨hok, fun h => Except.noConfusion (hok.symm.trans h)⟩

/-- C6 amended: when `temperature` is `None`, constructing with
`linear = True` and `geometric = True` raises `InconsistentValueError`
regardless of every other argument. -/
theorem init_both_flags_no_temperature_raises (autocm kelvin_to_au : ℚ)
    (parsed_frequencies parsed_reduced_masses : List ℚ)
    (parsed_normal_modes : List (List (List ℚ))) (classical : Bool)
    (temp_distribution A_distribution : Option DistributionFunction) :
    NormalModesConfigurationGenerator.init autocm kelvin_to_au parsed_frequencies
        parsed_reduced_masses parsed_normal_modes true true none classical
        temp_distribution A_distribution
      = .error .inconsistentValue := rfl

/-- C7 counterexample: in the amplitude-ensemble loop with
`classical = True`, the variance scalar actually used to accumulate `G`
is not `temp / frequency ** 2`: at `temp = 1`, `A = 0`, `frequency = 1`
the sequential assignments leave `d = 0.5 / 1`, not `1 / 1 ** 2`. -/
theorem amp_loop_d_not_temp_over_freq_sq :
    amp_loop_d true 1 0 1 42 ≠ 1 / ((1 : ℚ) : ℝ) ^ 2 := by
  unfold amp_loop_d amp_loop_final_store
  rw [if_neg (by norm_num : ¬((0 : ℝ) > 1.0e-8))]
  norm_num

/-- C7 amended: the `if self.classical: d = temp / frequency ** 2`
assignment in the amplitude-ensemble loop is dead: the following
unconditional `if A > 1e-8 / else` overwrites `d` in both branches, so the
value used to accumulate `G` is `0.5 / (tanh(0.5/A) * frequency)` (or
`0.5 / frequency` for `A ≤ 1e-8`), independent of `classical`, of the
leftover temperature value, and of the previous `d`. -/
theorem amp_loop_d_ignores_classical_store (classical : Bool) (temp A : ℝ)
    (frequency : ℚ) (d0 : ℝ) :
    amp_loop_d classical temp A frequency d0 = amp_loop_final_store A frequency 0 ∧
    amp_loop_d classical temp A frequency d0 = amp_loop_d false 0 A frequency 0 :=
  ⟨rfl, rfl⟩

/-- C2: a mode whose converted frequency is strictly below the fixed
cutoff `10 * cmtoau` contributes nothing to `G`: for any per-mode
variance rule `dOf` (covering both the temperature-ensemble and the
amplitude-ensemble loops), the `G` built with the mode present equals,
entry for entry, the `G` built with the mode absent. -/
theorem buildG_below_cutoff_no_contribution (cmtoau : ℚ) (dOf : ℚ → ℝ)
    (pre post : List (ℚ × List (List ℝ))) (frequency : ℚ) (u : List (List ℝ))
    (h : frequency < freq_cutoff cmtoau) :
    buildG (freq_cutoff cmtoau) dOf (pre ++ (frequency, u) :: post)
      = buildG (freq_cutoff cmtoau) dOf (pre ++ post) := by
  have hskip : ∀ G : ℕ → ℕ → ℝ,
      modeAccum (freq_cutoff cmtoau) dOf G (frequency, u) = G := by
    intro G
    unfold modeAccum
    exact if_neg (not_le.mpr h)
  unfold buildG
  rw [List.foldl_append, List.foldl_append, List.foldl_cons, hskip]

/-- C2 witness: a concrete mode with frequency `0`, below the cutoff for
`cmtoau = 1`, is dropped from the `G` accumulation. -/
theorem buildG_below_cutoff_witness :
    (0 : ℚ) < freq_cutoff 1 ∧
    buildG (freq_cutoff 1) (fun _ => 0) ([] ++ ((0 : ℚ), ([] : List (List ℝ))) :: [])
      = buildG (freq_cutoff 1) (fun _ => 0) ([] ++ []) :=
  ⟨by norm_num [freq_cutoff],
   buildG_below_cutoff_no_contribution 1 (fun _ => 0) [] [] 0 []
     (by norm_num [freq_cutoff])⟩

/-- C4: if `3 * num_atoms - num_normal_modes < 5`, `generate_configurations`
raises `InvalidValueError` before any random draw is consumed and before
any configuration is sampled or yielded (no configs, zero draws). -/
theorem generate_configurations_too_few_modes (cmtoau memr bohr : ℚ)
    (gauss : ℕ → ℕ → ℝ) (rand_seed : ℕ) (st : NormalModesConfigurationGenerator)
    (molecule_lists : List (List Molecule)) (num_configs : ℕ) (seed : Option ℕ)
    (h : ((3 * ((molecule_lists.headD []).headD []).length : ℕ) : ℤ)
      - st.normal_modes.length < 5) :
    generate_configurations cmtoau memr bohr gauss rand_seed st molecule_lists
        num_configs seed
      = ([], 0, some .invalidValue) := by
  unfold generate_configurations
  rw [if_pos h]

/-- C4 witness: a one-atom molecule with zero parsed modes has null-space
dimension `3 < 5`, so generation fails up front. -/
theorem generate_configurations_too_few_modes_witness :
    ((3 * (([[[({ mass := 1, x := 0, y := 0, z := 0 } : Atom)]]].headD []).headD
        []).length : ℕ) : ℤ) - (0 : ℕ) < 5 ∧
    generate_configurations 1 1 1 (fun _ _ => 0) 0
      { frequencies := [], reduced_masses := [], normal_modes := [],
        temp_distribution := some (.constant 0), A_distribution := none,
        classical := true }
      [[[{ mass := 1, x := 0, y := 0, z := 0 }]]] 5 none
      = ([], 0, some .invalidValue) :=
  ⟨by norm_num,
   generate_configurations_too_few_modes 1 1 1 (fun _ _ => 0) 0 _ _ 5 none
     (by norm_num)⟩

/-- C8: whenever the partition step assigns exactly one config to the
temperature distribution (`num_temp_configs == 1`), the first loop
iteration evaluates `0 / (1 - 1)` and generation fails with
`ZeroDivisionError`, yielding no configs and consuming no draws, instead
of producing the single requested config. -/
theorem generate_configurations_single_temp_zero_div (cmtoau memr bohr : ℚ)
    (gauss : ℕ → ℕ → ℝ) (rand_seed : ℕ) (st : NormalModesConfigurationGenerator)
    (molecule_lists : List (List Molecule)) (num_configs : ℕ) (seed : Option ℕ)
    (num_A_configs : ℕ)
    (hpart : choosePartition st.temp_distribution st.A_distribution num_configs
      = .ok (1, num_A_configs))
    (hdim : ¬ (((3 * ((molecule_lists.headD []).headD []).length : ℕ) : ℤ)
      - st.normal_modes.length < 5)) :
    generate_configurations cmtoau memr bohr gauss rand_seed st molecule_lists
        num_configs seed
      = ([], 0, some .zeroDivision) := by
  have key : ∀ (gaussS : ℕ → ℝ) (molecule : Molecule),
      generate_after_partition cmtoau memr bohr gaussS st molecule 1 num_A_configs
        = ([], 0, some .zeroDivision) := by
    intro gaussS molecule
    unfold generate_after_partition
    rw [show List.range 1 = [0] from rfl]
    simp [temp_config_loop.eq_def]
  unfold generate_configurations
  rw [if_neg hdim, hpart]
  exact key _ _

/-- C8 witness: a generator state with only a temperature distribution and
`num_configs = 1` reaches the division-by-zero error from the public
interface. -/
theorem generate_configurations_single_temp_zero_div_witness :
    choosePartition (some (.constant 0)) none 1 = .ok (1, 0) ∧
    generate_configurations 1 1 1 (fun _ _ => 0) 0
      { frequencies := [], reduced_masses := [], normal_modes := [],
        temp_distribution := some (.constant 0), A_distribution := none,
        classical := true }
      [[[{ mass := 1, x := 0, y := 0, z := 0 },
         { mass := 1, x := 0, y := 0, z := 0 }]]] 1 none
      = ([], 0, some .zeroDivision) :=
  ⟨rfl,
   generate_configurations_single_temp_zero_div 1 1 1 (fun _ _ => 0) 0 _ _ 1 none 0
     rfl (by norm_num)⟩

/-- C10: every successful construction leaves `temp_distribution` not
`None`: each constructor path either assigns it a distribution object or
raises.  Consequently the partition step never takes the
all-configs-to-amplitude branch and never reaches the
both-distributions-`None` error: it returns `(num_configs, 0)` when there
is no `A` distribution and `(num_configs - num_configs/2, num_configs/2)`
otherwise. -/
theorem init_ok_temp_distribution_not_none (autocm kelvin_to_au : ℚ)
    (parsed_frequencies parsed_reduced_masses : List ℚ)
    (parsed_normal_modes : List (List (List ℚ)))
    (linear geometric : Bool) (temperature : Option ℚ) (classical : Bool)
    (temp_distribution A_distribution : Option DistributionFunction)
    (st : NormalModesConfigurationGenerator)
    (h : NormalModesConfigurationGenerator.init autocm kelvin_to_au parsed_frequencies
      parsed_reduced_masses parsed_normal_modes linear geometric temperature classical
      temp_distribution A_distribution = .ok st) :
    st.temp_distribution ≠ none ∧
    ∀ num_configs, choosePartition st.temp_distribution st.A_distribution num_configs
      = .ok (if st.A_distribution.isSome then
          (num_configs - num_configs / 2, num_configs / 2) else (num_configs, 0)) := by
  have hsome : st.temp_distribution.isSome := by
    unfold NormalModesConfigurationGenerator.init at h
    rcases temperature with _ | t
    · cases linear <;> cases geometric
      · simp at h
        subst h
        cases htdp : temp_distribution <;> simp [htdp]
      · simp at h
        subst h
        cases htdp : temp_distribution <;> simp [htdp]
      · simp at h
        subst h
        cases htdp : temp_distribution <;> simp [htdp]
      · simp at h
    · simp at h
      subst h
      cases htdp : temp_distribution <;> simp [htdp]
  obtain ⟨d, hd⟩ := Option.isSome_iff_exists.mp hsome
  refine ⟨by simp [hd], fun num_configs => ?_⟩
  cases hA : st.A_distribution with
  | none => simp [choosePartition, hd, hA]
  | some a => simp [choosePartition, hd, hA]

/-- C10 witness: a concrete successful construction (constant temperature
`300`) to which the invariant applies. -/
theorem init_ok_temp_distribution_not_none_witness :
    NormalModesConfigurationGenerator.init 1 1 [] [] [] false false (some 300) true none none
      = .ok { frequencies := [], reduced_masses := [], normal_modes := [],
              temp_distribution := some (.constant (300 * 1)),
              A_distribution := none, classical := true } ∧
    ({ frequencies := [], reduced_masses := [], normal_modes := [],
       temp_distribution := some (.constant (300 * 1)),
       A_distribution := none, classical := true }
        : NormalModesConfigurationGenerator).temp_distribution ≠ none :=
  ⟨rfl,
   (init_ok_temp_distribution_not_none 1 1 [] [] [] false false (some 300) true none none
     _ rfl).1⟩

/-- `getD` after dividing every entry: the default `0` also maps to
`0 / ns`. -/
theorem list_getD_map_div (c : List ℝ) (ns : ℝ) (i : ℕ) :
    (c.map (fun x => x / ns)).getD i 0 = c.getD i 0 / ns := by
  induction c generalizing i with
  | nil => simp
  | cons a t ih =>
    cases i with
    | zero => simp
    | succ n => simpa using ih n

/-- Dividing a coordinate triple by `ns` divides its square sum by
`ns ^ 2`. -/
theorem sqTriple_map_div (c : List ℝ) (ns : ℝ) :
    sqTriple (c.map (fun x => x / ns)) = sqTriple c / ns ^ 2 := by
  unfold sqTriple
  rw [list_getD_map_div, list_getD_map_div, list_getD_map_div, div_pow, div_pow, div_pow,
    div_add_div_same, div_add_div_same]

/-- Dividing every component of a mode by `ns` divides its pooled square
sum by `ns ^ 2`. -/
theorem modeNormSq_map_div (l : List (List ℝ)) (ns : ℝ) :
    modeNormSq (l.map (fun coordinates => coordinates.map (fun c => c / ns)))
      = modeNormSq l / ns ^ 2 := by
  induction l with
  | nil => simp [modeNormSq]
  | cons c t ih =>
    simp only [modeNormSq, List.map_cons, List.sum_cons] at ih ⊢
    rw [sqTriple_map_div, ih, div_add_div_same]

/-- C1: for a valid normal-mode input (one coordinate triple per atom,
`3N - M ≥ 5`, mode not identically zero after mass-scaling), the one-time
preprocessing of `generate_configurations` — mass-scaling followed by
normalization — leaves the mode's displacement vector with pooled sum of
squares (over all atoms and all three axes) exactly equal to `1`. -/
theorem preprocessMode_unit_norm (memr : ℚ) (molecule : Molecule)
    (normal_modes : List (List (List ℚ))) (normal_mode : List (List ℚ))
    (hmem : normal_mode ∈ normal_modes)
    (hdof : 5 ≤ 3 * (molecule.length : ℤ) - normal_modes.length)
    (hlen : normal_mode.length = molecule.length)
    (hpos : 0 < normalization_scale memr molecule normal_mode) :
    modeNormSq (preprocessMode memr molecule normal_mode) = 1 := by
  have hdrop : normal_mode.drop molecule.length = [] := by
    rw [← hlen]
    exact List.drop_length normal_mode
  have hms : massScaleMode memr molecule normal_mode
      = massScaledPart memr molecule normal_mode := by
    unfold massScaleMode
    rw [hdrop]
    simp
  have hnorm : modeNormSq (massScaledPart memr molecule normal_mode)
      = normalization_scale memr molecule normal_mode := rfl
  unfold preprocessMode
  rw [modeNormSq_map_div, hms, hnorm, Real.sq_sqrt hpos.le,
    div_self (ne_of_gt hpos)]

/-- C1 witness: two unit-mass atoms and the single mode `(3,4,0),(0,0,0)`
(so `3N - M = 5`), whose normalization scale is `25`; after preprocessing
the pooled square sum is `1`. -/
theorem preprocessMode_unit_norm_witness :
    0 < normalization_scale 1
      [{ mass := 1, x := 0, y := 0, z := 0 }, { mass := 1, x := 0, y := 0, z := 0 }]
      [[3, 4, 0], [0, 0, 0]] ∧
    modeNormSq (preprocessMode 1
      [{ mass := 1, x := 0, y := 0, z := 0 }, { mass := 1, x := 0, y := 0, z := 0 }]
      [[3, 4, 0], [0, 0, 0]]) = 1 := by
  have hpos : 0 < normalization_scale 1
      [{ mass := 1, x := 0, y := 0, z := 0 }, { mass := 1, x := 0, y := 0, z := 0 }]
      [[3, 4, 0], [0, 0, 0]] := by
    norm_num [normalization_scale, massScaledPart, sqTriple, List.zipWith, List.getD,
      Real.sqrt_one]
  exact ⟨hpos,
    preprocessMode_unit_norm 1 _ [[[3, 4, 0], [0, 0, 0]]] _ (by simp) (by norm_num)
      (by norm_num) hpos⟩

instance pyTupleLe_total {β : Type} [LinearOrder β] : IsTotal (ℚ × β) pyTupleLe :=
  ⟨fun a b => le_total (toLex a) (toLex b)⟩

instance pyTupleLe_trans {β : Type} [LinearOrder β] : IsTrans (ℚ × β) pyTupleLe :=
  ⟨fun _ _ _ hab hbc => le_trans hab hbc⟩

/-- The tuple order implies the order of the first components. -/
theorem pyTupleLe_fst_le {β : Type} [LinearOrder β] {a b : ℚ × β}
    (h : pyTupleLe a b) : a.1 ≤ b.1 := by
  rcases (Prod.Lex.le_iff a b).mp h with hlt | ⟨heq, _⟩
  · exact le_of_lt hlt
  · exact le_of_eq heq

/-- Sorting zipped pairs by the tuple order and projecting the first
components gives the same list as sorting the first components alone
(Python's `sorted(frequencies)`). -/
theorem sorted_zip_map_fst {β : Type} [LinearOrder β] (fs : List ℚ) (xs : List β)
    (h : fs.length ≤ xs.length) :
    ((fs.zip xs).insertionSort pyTupleLe).map Prod.fst
      = fs.insertionSort (fun a b => a ≤ b) := by
  have hperm : (((fs.zip xs).insertionSort pyTupleLe).map Prod.fst).Perm
      (fs.insertionSort (fun a b => a ≤ b)) := by
    have h1 : (((fs.zip xs).insertionSort pyTupleLe).map Prod.fst).Perm
        ((fs.zip xs).map Prod.fst) := (List.perm_insertionSort _ _).map _
    rw [List.map_fst_zip fs xs h] at h1
    exact h1.trans (List.perm_insertionSort _ _).symm
  haveI : IsAntisymm ℚ (fun a b : ℚ => a ≤ b) := ⟨fun _ _ => le_antisymm⟩
  have hs1 : List.Sorted (fun a b : ℚ => a ≤ b)
      (((fs.zip xs).insertionSort pyTupleLe).map Prod.fst) :=
    List.Pairwise.map _ (fun _ _ hab => pyTupleLe_fst_le hab)
      (List.sorted_insertionSort pyTupleLe (fs.zip xs))
  exact List.eq_of_perm_of_sorted hperm hs1 (List.sorted_insertionSort _ fs)

/-- C3 amended: for every input — tied frequencies included — the
frequencies returned by `sort_by_frequency` are non-decreasing; and when
the input frequencies are pairwise distinct (and the three lists have
equal lengths) the same permutation is applied to all three lists, so
each output position's (frequency, reduced mass, normal mode) triple is
an input triple.  (When frequencies tie, the two `sorted(zip(...))`
calls break the tie by the second tuple component — reduced-mass order
and normal-mode lexicographic order respectively — which need not agree,
so associations can break; see the counterexample.) -/
theorem sort_by_frequency_sorted_and_distinct_assoc (fs ms : List ℚ)
    (nms : List (List (List ℚ))) :
    List.Sorted (fun a b : ℚ => a ≤ b) (sort_by_frequency fs ms nms).1 ∧
    (ms.length = fs.length → nms.length = fs.length → fs.Nodup →
      ∀ i, i < fs.length →
        ∃ j, j < fs.length ∧
          (sort_by_frequency fs ms nms).1.getD i 0 = fs.getD j 0 ∧
          (sort_by_frequency fs ms nms).2.1.getD i 0 = ms.getD j 0 ∧
          (sort_by_frequency fs ms nms).2.2.getD i [] = nms.getD j []) := by
  have hp1 : (sort_by_frequency fs ms nms).1
      = fs.insertionSort (fun a b => a ≤ b) := rfl
  have hp2 : (sort_by_frequency fs ms nms).2.1
      = ((fs.zip ms).insertionSort pyTupleLe).map Prod.snd := rfl
  have hp3 : (sort_by_frequency fs ms nms).2.2
      = ((fs.zip nms).insertionSort pyTupleLe).map Prod.snd := rfl
  simp only [hp1, hp2, hp3]
  refine ⟨List.sorted_insertionSort _ fs, fun hm hn hd i hi => ?_⟩
  have hms : fs.length ≤ ms.length := le_of_eq hm.symm
  have hns : fs.length ≤ nms.length := le_of_eq hn.symm
  have hzl1 : (fs.zip ms).length = fs.length := by
    rw [List.length_zip]
    omega
  have hzl2 : (fs.zip nms).length = fs.length := by
    rw [List.length_zip]
    omega
  have hL1len : ((fs.zip ms).insertionSort pyTupleLe).length = fs.length := by
    rw [(List.perm_insertionSort _ _).length_eq, hzl1]
  have hL2len : ((fs.zip nms).insertionSort pyTupleLe).length = fs.length := by
    rw [(List.perm_insertionSort _ _).length_eq, hzl2]
  have hFlen : (fs.insertionSort (fun a b => a ≤ b)).length = fs.length :=
    (List.perm_insertionSort _ _).length_eq
  have hi1 : i < ((fs.zip ms).insertionSort pyTupleLe).length := by omega
  have hi2 : i < ((fs.zip nms).insertionSort pyTupleLe).length := by omega
  have hiF : i < (fs.insertionSort (fun a b => a ≤ b)).length := by omega
  have hmem1 : ((fs.zip ms).insertionSort pyTupleLe)[i] ∈ fs.zip ms :=
    (List.perm_insertionSort _ _).mem_iff.mp (List.getElem_mem hi1)
  have hmem2 : ((fs.zip nms).insertionSort pyTupleLe)[i] ∈ fs.zip nms :=
    (List.perm_insertionSort _ _).mem_iff.mp (List.getElem_mem hi2)
  obtain ⟨j1, hj1lt, hj1⟩ := List.mem_iff_getElem.mp hmem1
  obtain ⟨j2, hj2lt, hj2⟩ := List.mem_iff_getElem.mp hmem2
  rw [List.getElem_zip] at hj1 hj2
  have hj1fs : j1 < fs.length := by omega
  have hj2fs : j2 < fs.length := by omega
  have hj1ms : j1 < ms.length := by omega
  have hj2nms : j2 < nms.length := by omega
  have hmapb1 : i < (((fs.zip ms).insertionSort pyTupleLe).map Prod.fst).length := by
    rw [List.length_map]
    omega
  have hmapb2 : i < (((fs.zip nms).insertionSort pyTupleLe).map Prod.fst).length := by
    rw [List.length_map]
    omega
  have hfst1 : (((fs.zip ms).insertionSort pyTupleLe)[i]).1
      = (fs.insertionSort (fun a b => a ≤ b))[i] := by
    have e : (((fs.zip ms).insertionSort pyTupleLe).map Prod.fst)[i]
        = (((fs.zip ms).insertionSort pyTupleLe))[i].1 := by
      simp
    rw [← e]
    exact List.getElem_of_eq (sorted_zip_map_fst fs ms hms) hmapb1
  have hfst2 : (((fs.zip nms).insertionSort pyTupleLe)[i]).1
      = (fs.insertionSort (fun a b => a ≤ b))[i] := by
    have e : (((fs.zip nms).insertionSort pyTupleLe).map Prod.fst)[i]
        = (((fs.zip nms).insertionSort pyTupleLe))[i].1 := by
      simp
    rw [← e]
    exact List.getElem_of_eq (sorted_zip_map_fst fs nms hns) hmapb2
  have hsame : fs[j1] = fs[j2] := by
    have e1 : fs[j1] = (((fs.zip ms).insertionSort pyTupleLe)[i]).1 :=
      congrArg Prod.fst hj1
    have e2 : fs[j2] = (((fs.zip nms).insertionSort pyTupleLe)[i]).1 :=
      congrArg Prod.fst hj2
    rw [e1, e2, hfst1, hfst2]
  have hjj : j1 = j2 := (hd.getElem_inj_iff).mp hsame
  subst hjj
  refine ⟨j1, hj1fs, ?_, ?_, ?_⟩
  · rw [List.getD_eq_getElem _ _ hiF, List.getD_eq_getElem _ _ hj1fs]
    rw [← hfst1]
    exact (congrArg Prod.fst hj1).symm
  · rw [List.getD_eq_getElem _ _ (by rw [List.length_map]; omega :
      i < (((fs.zip ms).insertionSort pyTupleLe).map Prod.snd).length),
      List.getD_eq_getElem _ _ hj1ms]
    rw [List.getElem_map]
    exact (congrArg Prod.snd hj1).symm
  · rw [List.getD_eq_getElem _ _ (by rw [List.length_map]; omega :
      i < (((fs.zip nms).insertionSort pyTupleLe).map Prod.snd).length),
      List.getD_eq_getElem _ _ hj2nms]
    rw [List.getElem_map]
    exact (congrArg Prod.snd hj2).symm

/-- C3 counterexample: with tied frequencies `[1, 1]`, reduced masses
`[2, 1]` and normal modes `[[[0,1,0]], [[1,0,0]]]`, the masses are
reordered by the `(frequency, mass)` tuple order while the modes are left
in place by the `(frequency, mode)` tuple order, so the output triple at
position 0 — `(1, 1, [[0,1,0]])` — is not a triple of the input. -/
theorem sort_by_frequency_tie_counterexample :
    ((sort_by_frequency [1, 1] [2, 1] [[[0, 1, 0]], [[1, 0, 0]]]).1.getD 0 0,
     (sort_by_frequency [1, 1] [2, 1] [[[0, 1, 0]], [[1, 0, 0]]]).2.1.getD 0 0,
     (sort_by_frequency [1, 1] [2, 1] [[[0, 1, 0]], [[1, 0, 0]]]).2.2.getD 0 [])
      ∉ List.zip ([1, 1] : List ℚ)
          (List.zip ([2, 1] : List ℚ) [[[(0 : ℚ), 1, 0]], [[1, 0, 0]]]) := by
  decide

/-- C3 witness: with distinct frequencies `[4, 3]` the amended statement
applies: the sorted output is non-decreasing and every output triple is
an input triple. -/
theorem sort_by_frequency_sorted_and_distinct_assoc_witness :
    ([4, 3] : List ℚ).Nodup ∧
    (List.Sorted (fun a b : ℚ => a ≤ b)
        (sort_by_frequency [4, 3] [5, 6] [[[1, 0, 0]], [[0, 1, 0]]]).1 ∧
      ∀ i, i < ([4, 3] : List ℚ).length →
        ∃ j, j < ([4, 3] : List ℚ).length ∧
          (sort_by_frequency [4, 3] [5, 6] [[[1, 0, 0]], [[0, 1, 0]]]).1.getD i 0
            = ([4, 3] : List ℚ).getD j 0 ∧
          (sort_by_frequency [4, 3] [5, 6] [[[1, 0, 0]], [[0, 1, 0]]]).2.1.getD i 0
            = ([5, 6] : List ℚ).getD j 0 ∧
          (sort_by_frequency [4, 3] [5, 6] [[[1, 0, 0]], [[0, 1, 0]]]).2.2.getD i []
            = ([[[(1 : ℚ), 0, 0]], [[0, 1, 0]]]).getD j []) :=
  ⟨by decide,
   (sort_by_frequency_sorted_and_distinct_assoc [4, 3] [5, 6]
      [[[1, 0, 0]], [[0, 1, 0]]]).1,
   (sort_by_frequency_sorted_and_distinct_assoc [4, 3] [5, 6]
      [[[1, 0, 0]], [[0, 1, 0]]]).2 rfl rfl (by decide)⟩

/-- The atom-offset reader succeeds on a run of well-shaped offset lines
and consumes exactly those lines. -/
theorem parseAtomLines_good (atomLines : List Line) :
    ∀ (num_atoms : ℕ) (coords : List (List ℚ)) (rest : List Line),
      atomLines.length = num_atoms →
      (∀ l ∈ atomLines, (wsplit l).length = 3) →
      atomLines.map (fun l => (wsplit l).mapM parseFloat?) = coords.map some →
      parseAtomLines num_atoms (atomLines ++ rest)
        = .ok (coords, ⟨rest, by simp⟩) := by
  induction atomLines with
  | nil =>
    intro num_atoms coords rest hc ht hv
    have hcoords : coords = [] := by
      cases coords with
      | nil => rfl
      | cons c t => simp at hv
    subst hcoords
    subst hc
    rfl
  | cons l ls ih =>
    intro num_atoms coords rest hc ht hv
    cases coords with
    | nil => simp at hv
    | cons c cs =>
      simp only [List.map_cons, List.cons.injEq] at hv
      obtain ⟨hv1, hv2⟩ := hv
      subst hc
      have hlt : (wsplit l).length = 3 := ht l (by simp)
      show parseAtomLines (ls.length + 1) (l :: (ls ++ rest)) = _
      simp only [parseAtomLines]
      rw [hlt]
      rw [show ((3 : ℕ) != 3) = false from rfl]
      simp only [Bool.false_eq_true, if_false]
      rw [hv1]
      rw [ih ls.length cs rest rfl (fun x hx => ht x (by simp [hx])) hv2]

/-- A well-formed block body (after the header) parses to its denoted
data and consumes exactly the block's remaining lines, including the
closing blank line. -/
theorem parseBlockTail_good (num_atoms : ℕ) (b : GoodBlock num_atoms)
    (rest : List Line) :
    parseBlockTail num_atoms
        (b.freqLine :: b.massLine :: (b.atomLines ++ newlineLine :: rest))
      = .ok ((b.frequency, b.reduced_mass, b.coords), ⟨rest, by
          simp only [List.length_cons, List.length_append]
          omega⟩) := by
  simp only [parseBlockTail]
  rw [b.freq_start, b.freq_tokens]
  rw [show ((3 : ℕ) != 3) = false from rfl]
  simp only [Bool.not_true, Bool.false_or, Bool.false_eq_true, if_false]
  rw [b.freq_val]
  rw [b.mass_start, b.mass_tokens]
  rw [show ((4 : ℕ) != 4) = false from rfl]
  simp only [Bool.not_true, Bool.false_or, Bool.false_eq_true, if_false]
  rw [b.mass_val]
  rw [parseAtomLines_good b.atomLines num_atoms b.coords (newlineLine :: rest)
    b.atoms_count b.atoms_tokens b.atoms_vals]
  rfl

/-- Unfolding of `parse_normal_modes_file` on a non-empty file. -/
theorem parse_normal_modes_file_cons (num_atoms : ℕ) (first_line : Line)
    (rest : List Line) :
    parse_normal_modes_file num_atoms (first_line :: rest)
      = if (!("normal mode:".toList.isPrefixOf first_line)
            || (wsplit first_line).length != 3) then .error .lineFormat
        else
          match parseBlockTail num_atoms rest with
          | .error e => .error e
          | .ok ((frequency, reduced_mass, normal_mode), rem) =>
            match parse_normal_modes_file num_atoms rem.val with
            | .error e => .error e
            | .ok (frequencies, reduced_masses, normal_modes) =>
              .ok (frequency :: frequencies, reduced_mass :: reduced_masses,
                   normal_mode :: normal_modes) := by
  rw [parse_normal_modes_file.eq_def]

/-- C9 amended: `parse_normal_modes_file` accepts exactly the files made
of well-formed blocks each closed by a blank line, with end of file
immediately after the final blank line; it then returns all blocks'
frequencies, reduced masses and displacement sets.  (A final block ending
at end of file without its closing blank line instead raises
`ParsingError`; see the counterexample.) -/
theorem parse_normal_modes_file_good_blocks (num_atoms : ℕ)
    (blocks : List (GoodBlock num_atoms)) :
    parse_normal_modes_file num_atoms ((blocks.map GoodBlock.lines).flatten)
      = .ok (blocks.map GoodBlock.frequency, blocks.map GoodBlock.reduced_mass,
             blocks.map GoodBlock.coords) := by
  induction blocks with
  | nil =>
    rw [parse_normal_modes_file.eq_def]
    rfl
  | cons b bs ih =>
    have hjoin : (((b :: bs).map GoodBlock.lines).flatten)
        = b.header :: b.freqLine :: b.massLine ::
            (b.atomLines ++ newlineLine :: ((bs.map GoodBlock.lines).flatten)) := by
      simp [GoodBlock.lines]
    rw [hjoin, parse_normal_modes_file_cons]
    rw [b.header_start, b.header_tokens]
    rw [show ((3 : ℕ) != 3) = false from rfl]
    simp only [Bool.not_true, Bool.false_or, Bool.false_eq_true, if_false]
    rw [parseBlockTail_good num_atoms b ((bs.map GoodBlock.lines).flatten)]
    simp [ih]

/-- C9 counterexample: a single well-formed block whose final offset line
ends exactly at end of file, with no closing blank line, does not parse:
the `blank_line != "\n"` check sees the empty `readline()` result and
raises `ParsingError`, contradicting the claim that trailing EOF with no
blank line is the expected termination. -/
theorem parse_normal_modes_file_no_trailing_blank_error :
    parse_normal_modes_file 1
        [ "normal mode: 1\n".toList, "frequency = 5\n".toList,
          "reduced mass = 1\n".toList, "1 0 0".toList ]
      = .error .parsing := by
  rw [parse_normal_modes_file_cons]
  rfl

/-- C9 witness: a one-block file closed by a blank line parses to its
data. -/
theorem parse_normal_modes_file_good_blocks_witness :
    parse_normal_modes_file 1
        ((([⟨"normal mode: 1\n".toList, "frequency = 5\n".toList,
            "reduced mass = 1\n".toList, ["1 0 0\n".toList], 5, 1, [[1, 0, 0]],
            by decide, by decide, by decide, by decide, by decide, by decide,
            by decide, by decide, by decide, by decide, by decide⟩] :
          List (GoodBlock 1)).map GoodBlock.lines).flatten)
      = .ok ([5], [1], [[[1, 0, 0]]]) := by
  rw [parse_normal_modes_file_good_blocks]
  rfl
